import Mathlib

/-!
Verification of the Gcrane registry-migration scripts.

The development shallowly embeds the two Python sources:
* `azure-to-gcp-migration.py` — the migration driver: SQLite idempotency
  ledger (`insert_processed`, `check_if_processed`, `get_all_processed`),
  the `retry` decorator, `chunkify`, the subprocess wrappers `copy_image`
  and `create_gcr_repository`, `process_repository`, the targeted-replay
  driver `copy_images_to_gcr`, and the `__main__` exit-code logic.
* `gcp-to-azure-image-verify.py` — the inventory diff:
  `read_images_from_file`, `compare_registries` and its `__main__`.

External effects (subprocess outcomes, file contents, tag listings) are
passed in as explicit values; mutable state (the SQLite table, the
difference file) is threaded explicitly.
-/

/-- Model of Python `str.split(sep)` for a single-character separator,
working over the character list: splits at every occurrence of `sep`,
keeping empty segments, so `"".split(':') = [""]` and
`":".split(':') = ["", ""]`. -/
def splitChars (sep : Char) : List Char → List (List Char)
  | [] => [[]]
  | c :: cs =>
    if c = sep then [] :: splitChars sep cs
    else
      match splitChars sep cs with
      | [] => [[c]]
      | g :: gs => (c :: g) :: gs

/-- Python `line.split(':')` as used throughout both scripts. -/
def pySplit (s : String) (sep : Char) : List String :=
  (splitChars sep s.data).map (fun cs => String.mk cs)

/-- Whitespace characters removed by Python `str.strip()` (the ones that
occur in the scripts' inputs). -/
def isPyWs (c : Char) : Bool :=
  c = ' ' || c = '\n' || c = '\t' || c = '\r'

/-- Model of Python `str.strip()`: drop leading and trailing whitespace. -/
def pyStrip (s : String) : String :=
  String.mk (((s.data.dropWhile isPyWs).reverse.dropWhile isPyWs).reverse)

/-- One row of the `processed_entries` SQLite table: the four-column
primary key `(acr_name, repository, tag, digest)`.  Two identities are
equal iff all four fields match exactly. -/
structure ImageIdentity where
  acr_name : String
  repository : String
  tag : String
  digest : String
deriving DecidableEq, Repr

/-- The `processed_entries` table, as the list of its rows in insertion
(rowid) order.  The four-column primary key means a row never occurs
twice. -/
abbrev LedgerDb := List ImageIdentity

/-- `insert_processed(acr_name, repo, tag, digest)`: SQLite
`INSERT OR IGNORE` against the four-column primary key — appends the row
unless an identical row is already present; a duplicate insert is a
no-op, never an error. -/
def insert_processed (db : LedgerDb) (acr_name repo tag digest : String) : LedgerDb :=
  let row : ImageIdentity := ⟨acr_name, repo, tag, digest⟩
  if row ∈ db then db else db ++ [row]

/-- `check_if_processed(acr_name, repo, tag, digest)`: SQLite
`SELECT EXISTS(... WHERE acr_name = ? AND repository = ? AND tag = ?
AND digest = ?)`. -/
def check_if_processed (db : LedgerDb) (acr_name repo tag digest : String) : Bool :=
  decide ((⟨acr_name, repo, tag, digest⟩ : ImageIdentity) ∈ db)

/-- `get_all_processed()`: `SELECT * FROM processed_entries` — the full
row listing. -/
def get_all_processed (db : LedgerDb) : LedgerDb := db

/-- `clear_all_processed()`: `DELETE FROM processed_entries`. -/
def clear_all_processed (_db : LedgerDb) : LedgerDb := []

/-- The `retry(retries, delay)` decorator's loop body.  The wrapped
operation is modelled as `op : Nat → Except ε α`, giving the outcome of
its `i`-th invocation (`Except.error` = the Python call raised).  The
first argument of the recursion is the number of loop iterations left
(`retries - i`), the second is the current attempt index `i`.  Returns
the wrapper's return value (`none` = the implicit Python `None` after
the loop exhausts, the sentinel "failed" outcome) paired with the number
of invocations actually performed.  Every exception is caught inside the
loop, so the wrapper itself never raises: it is a total function. -/
def retryGo (op : Nat → Except ε α) : Nat → Nat → Option α × Nat
  | 0, _ => (none, 0)
  | fuel + 1, i =>
    match op i with
    | Except.ok a => (some a, 1)
    | Except.error _ =>
      let r := retryGo op fuel (i + 1)
      (r.1, r.2 + 1)

/-- The `retry(retries, delay)` decorator applied to `op`: run the
`for i in range(retries)` loop from attempt `0`. -/
def retry (op : Nat → Except ε α) (retries : Nat) : Option α × Nat :=
  retryGo op retries 0

/-- The outcome of a `subprocess.run` call: its exit code and captured
standard error. -/
structure SubprocResult where
  returncode : Int
  stderr : String
deriving DecidableEq, Repr

/-- A structured log line (`logging.info` / `logging.warning` /
`logging.error`). -/
inductive LogLine where
  | info : String → LogLine
  | warning : String → LogLine
  | error : String → LogLine
deriving DecidableEq, Repr

/-- `copy_image(source_image, dest_image)` given the outcome `res` of the
`gcrane cp` subprocess.  The Python function checks `res.returncode`,
logs, and falls off the end in both branches: it returns `None`
(`Except.ok ()` here) and raises nothing whatever the exit code was. -/
def copy_image (source_image dest_image : String) (res : SubprocResult) :
    Except String Unit × List LogLine :=
  if res.returncode = 0 then
    (Except.ok (), [LogLine.info ("Successfully copied " ++ source_image ++ " to " ++ dest_image)])
  else
    (Except.ok (), [LogLine.error ("Failed to copy " ++ source_image ++ " to " ++ dest_image
      ++ ": " ++ res.stderr)])

/-- `create_gcr_repository(repo_name)` given the outcome `res` of the
`gcloud artifacts repositories create` subprocess: exit code `0` logs
success, an `ALREADY_EXISTS` marker on stderr logs a skip, anything else
logs an error; all three branches return `None` without raising. -/
def create_gcr_repository (repo_name : String) (res : SubprocResult) :
    Except String Unit × List LogLine :=
  if res.returncode = 0 then
    (Except.ok (), [LogLine.info ("Successfully created repository " ++ repo_name)])
  else if List.IsInfix "ALREADY_EXISTS".data res.stderr.data then
    (Except.ok (), [LogLine.info ("Repository " ++ repo_name ++ " already exists. Skipping creation.")])
  else
    (Except.ok (), [LogLine.error ("Failed to create repository " ++ repo_name ++ ": " ++ res.stderr)])

/-- The iteration body of `chunkify`'s comprehension
`[lst[i:i + n] for i in range(0, len(lst), n)]`, written with explicit
fuel bounding the number of loop iterations: each iteration yields the
slice `lst[i:i+n]` (here `lst.take n` of the remaining suffix) and
advances by `n`.  Since every iteration with a nonempty remainder
consumes at least one element when `0 < n`, `lst.length` iterations of
fuel always suffice. -/
def chunkifyGo (n : Nat) : Nat → List α → List (List α)
  | 0, _ => []
  | _, [] => []
  | fuel + 1, lst => lst.take n :: chunkifyGo n fuel (lst.drop n)

/-- `chunkify(lst, n)` = `[lst[i:i + n] for i in range(0, len(lst), n)]`.
(Python's `range` rejects a zero step, so the function is only ever run
with `0 < n`; that case is mapped to `[]` here and every theorem about
`chunkify` assumes `0 < n`.) -/
def chunkify (lst : List α) (n : Nat) : List (List α) :=
  if n = 0 then [] else chunkifyGo n lst.length lst

/-- A scheduling event of the `__main__` full-scan loop: batch `k`
submits item `x` to the pool (`dispatch`), or item `x` of batch `k`
finishes (`complete`). -/
inductive MigEvent (α : Type u) where
  | dispatch : Nat → α → MigEvent α
  | complete : Nat → α → MigEvent α
deriving DecidableEq, Repr

/-- The batch index an event belongs to. -/
def evBatch : MigEvent α → Nat
  | MigEvent.dispatch k _ => k
  | MigEvent.complete k _ => k

/-- The event trace of one chunk of the full-scan loop: inside
`with ThreadPoolExecutor(...)`, every item of the chunk is submitted,
and the `as_completed` loop together with the `with`-block exit joins
every future before the loop moves on.  `sched k` gives the
(nondeterministic) completion order of batch `k`'s items. -/
def chunk_trace (sched : Nat → List α → List α) (k : Nat) (chunk : List α) : List (MigEvent α) :=
  chunk.map (MigEvent.dispatch k) ++ (sched k chunk).map (MigEvent.complete k)

/-- The event trace of `for chunk in chunks: ...` starting at batch
index `k`: the chunks are handled strictly one after the other. -/
def batches_trace (sched : Nat → List α → List α) : Nat → List (List α) → List (MigEvent α)
  | _, [] => []
  | k, c :: rest => chunk_trace sched k c ++ batches_trace sched (k + 1) rest

/-- The full-scan `__main__` dispatch trace over
`chunks = chunkify(acr_names, MAX_CONCURRENT_JOBS)`. -/
def main_dispatch_trace (sched : Nat → List α → List α) (regs : List α) (n : Nat) :
    List (MigEvent α) :=
  batches_trace sched 0 (chunkify regs n)

/-- The external-world outcomes `process_repository` runs against:
`list_tags`' result, `get_tag_digest`'s per-tag result (`none` models
the Python `None` returned on error or retry exhaustion; the empty
string is also falsy and skipped), and the `gcrane cp` exit code for
each tag's copy. -/
structure MigrationEnv where
  tags : List String
  digestOf : String → Option String
  copyRc : String → Int

/-- The state produced by `process_repository`: the ledger table and the
list of copy attempts `(source_image, dest_image, returncode)` in
dispatch order. -/
structure RepoRunResult where
  db : LedgerDb
  attempts : List (String × String × Int)
deriving DecidableEq, Repr

/-- `process_repository(acr_name, repo)`: for each tag, fetch the
digest (skip falsy), skip if `check_if_processed`, otherwise run
`copy_image` through the pool (exceptions would be re-raised by
`future.result()`, but `copy_image` swallows a nonzero `gcrane` exit
code and the `retry` wrapper swallows exceptions, so control always
reaches the next line) and then call `insert_processed`.
`create_gcr_repository` is invoked once up front; by `copy_image`'s
sibling theorem it always returns normally, so it contributes no
control flow and only its logs are omitted here. -/
def process_repository (env : MigrationEnv) (region project acr_name repo : String)
    (db0 : LedgerDb) : RepoRunResult :=
  env.tags.foldl
    (fun st tag =>
      match env.digestOf tag with
      | none => st
      | some digest =>
        if digest = "" then st
        else if check_if_processed st.db acr_name repo tag digest then st
        else
          let source := acr_name ++ ".azurecr.io/" ++ repo ++ ":" ++ tag
          let dest := region ++ "-docker.pkg.dev/" ++ project ++ "/" ++ acr_name ++ "/"
            ++ repo ++ ":" ++ tag
          { db := insert_processed st.db acr_name repo tag digest,
            attempts := st.attempts ++ [(source, dest, env.copyRc tag)] })
    { db := db0, attempts := [] }

/-- The effects performed by one run of `copy_images_to_gcr`:
repositories ensured, copies submitted (source, destination), ledger
`insert_processed` calls made, and whether the function's outer
`except Exception` clause caught an exception. -/
structure ReplayResult where
  ensures : List String
  copies : List (String × String)
  inserts : List ImageIdentity
  errored : Bool
deriving DecidableEq, Repr

/-- One iteration of the replay loop body applied to an already-stripped
line: when the line has at least three colon-delimited fields it yields
`(repo_name, source_image, destination_image)` exactly as the source
builds them; otherwise the line is skipped (`none`). -/
def replay_line_effect (region project : String) (line : String) :
    Option (String × String × String) :=
  let parts := pySplit line ':'
  if 3 ≤ parts.length then
    let repo_name := parts.getD 0 ""
    let azure_registry := parts.getD 0 "" ++ ".azurecr.io"
    let image_path_with_tag := parts.getD 1 "" ++ ":" ++ parts.getD 2 ""
    some (repo_name, azure_registry ++ "/" ++ image_path_with_tag,
      region ++ "-docker.pkg.dev/" ++ project ++ "/" ++ parts.getD 0 "" ++ "/"
        ++ image_path_with_tag)
  else none

/-- The `for original_image in original_images` loop body of
`copy_images_to_gcr`: strip the raw line, split on `':'`, and when it
has at least three fields call `ensure_gar_repository` and submit
`copy_image`; otherwise do nothing. -/
def replay_loop_step (region project : String) (acc : ReplayResult) (raw : String) :
    ReplayResult :=
  match replay_line_effect region project (pyStrip raw) with
  | some e =>
    { acc with
      ensures := acc.ensures ++ [e.1],
      copies := acc.copies ++ [(e.2.1, e.2.2)] }
  | none => acc

/-- `copy_images_to_gcr(difference_file)` on the file's raw lines.  After
the empty-file early return and the submit loop, the trailing block
re-splits the loop variable `original_image` — which at that point holds
the *last* stripped line — into `Image` (and `parts` likewise still
holds the last line's split), and performs a single
`insert_processed(Image[0], Image[1], Image[2], f"{parts[3]}:{parts[4]}")`
guarded by `len(Image) >= 3`; when the last line has only three or four
fields, `parts[3]`/`parts[4]` raises `IndexError`, which the outer
`except Exception` catches (`errored`). -/
def copy_images_to_gcr (region project : String) (lines : List String) : ReplayResult :=
  if lines = [] then ⟨[], [], [], false⟩
  else
    let looped := lines.foldl (replay_loop_step region project) ⟨[], [], [], false⟩
    let original_image := pyStrip (lines.getLastD "")
    let image := pySplit original_image ':'
    let parts := pySplit original_image ':'
    if 3 ≤ image.length then
      if 5 ≤ parts.length then
        { looped with
          inserts := looped.inserts ++
            [⟨image.getD 0 "", image.getD 1 "", image.getD 2 "",
              parts.getD 3 "" ++ ":" ++ parts.getD 4 ""⟩] }
      else { looped with errored := true }
    else looped

/-- The exit code of `azure-to-gcp-migration.py`.  Inputs: the module-
level `get_azure_subscription_id()` result (`none` = the `az` call
failed, `some ""` = empty output; both are falsy and hit `exit(1)`), the
optional `--diff-file` argument, whether `os.path.isfile` accepts a
path, the result of `list_acr_registries()` (`none` = all retries
raised, so the wrapper returned `None` and `chunkify(None, ...)` crashes
with an uncaught `TypeError`, exiting nonzero), and the `gcrane` exit
code of every copy.  Copy outcomes never reach the exit code: `copy_image`
returns normally on any exit code, the `retry` wrapper swallows
exceptions, and both drivers catch per-item exceptions. -/
def migration_main_exit_code (subscription_id : Option String) (diff_file : Option String)
    (isFile : String → Bool) (acr_names_result : Option (List String))
    (_copyRc : String → Int) : Nat :=
  if subscription_id = none ∨ subscription_id = some "" then 1
  else
    match diff_file with
    | some p => if isFile p then 0 else 1
    | none =>
      match acr_names_result with
      | none => 1
      | some _ => 0

/-- `read_images_from_file(file_path)` (the second, overriding
definition in the source): the set of stripped lines of the file. -/
def read_images_from_file (contents : List String) : Finset String :=
  (contents.map pyStrip).toFinset

/-- `missing_in_acr = acr_images - gcr_images`: Python set subtraction,
exact whole-identity (string) equality. -/
def missing_in_acr (acr_images gcr_images : Finset String) : Finset String :=
  acr_images \ gcr_images

/-- `compare_registries(acr_file, gcr_file, difference_file)` on two
inventories and the current difference-file state (`none` = no file):
a nonempty difference is written to the difference file and `True`
returned; otherwise the stale difference file is removed if it exists
and `False` returned. -/
def compare_registries (acr_images gcr_images : Finset String)
    (_fs : Option (Finset String)) : Bool × Option (Finset String) :=
  let missing := missing_in_acr acr_images gcr_images
  if missing ≠ ∅ then (true, some missing)
  else (false, none)

/-- The `__main__` of `gcp-to-azure-image-verify.py` from the two
fetched inventories and an arbitrary initial difference-file state:
`remove_old_files()` deletes any stale difference file, then
`compare_registries` runs, then the copy branch is taken only when the
difference file was created and `os.path.getsize` of it is positive.
Returns `(difference_created, final difference-file state, copy branch
taken)`. -/
def verify_main (acr_images gcr_images : Finset String)
    (_fs0 : Option (Finset String)) : Bool × Option (Finset String) × Bool :=
  let fs1 : Option (Finset String) := none
  let r := compare_registries acr_images gcr_images fs1
  let sizePositive : Bool :=
    match r.2 with
    | some s => decide (s ≠ ∅)
    | none => false
  (r.1, r.2, r.1 && sizePositive)

lemma retryGo_always_error {ε α : Type} (op : Nat → Except ε α)
    (h : ∀ i, ∃ e, op i = Except.error e) :
    ∀ fuel i, retryGo op fuel i = (none, fuel) := by
  intro fuel
  induction fuel with
  | zero => intro i; rfl
  | succ f ih =>
    intro i
    obtain ⟨e, he⟩ := h i
    simp [retryGo, he, ih]

lemma retryGo_count_le {ε α : Type} (op : Nat → Except ε α) :
    ∀ fuel i, (retryGo op fuel i).2 ≤ fuel := by
  intro fuel
  induction fuel with
  | zero => intro i; exact Nat.le_refl 0
  | succ f ih =>
    intro i
    cases hop : op i with
    | ok a => simp [retryGo, hop]
    | error e => simpa [retryGo, hop] using Nat.succ_le_succ (ih (i + 1))

/-- C3: an operation that fails on every invocation, run through the
retry wrapper with `maxAttempts = n`, is invoked exactly `n` times
(so exactly `3` times for the default `RETRY_LIMIT = 3`) and the
wrapper returns the `None` sentinel rather than raising (the wrapper is
a total function into `Option`, every per-attempt exception being
caught by its `except` clause); for any operation and any
`maxAttempts`, the operation is invoked at most `maxAttempts` times. -/
theorem c3_retry_exhausts_and_is_bounded {ε α : Type} (op : Nat → Except ε α)
    (h : ∀ i, ∃ e, op i = Except.error e) :
    retry op 3 = (none, 3) ∧
    (∀ n, retry op n = (none, n)) ∧
    (∀ (op2 : Nat → Except ε α) (n : Nat), (retry op2 n).2 ≤ n) :=
  ⟨retryGo_always_error op h 3 0,
   fun n => retryGo_always_error op h n 0,
   fun op2 n => retryGo_count_le op2 n 0⟩

/-- Witness for C3 at the concrete always-failing operation. -/
theorem c3_retry_witness :
    retry (fun _ => (Except.error "boom" : Except String Unit)) 3 = (none, 3) :=
  (c3_retry_exhausts_and_is_bounded (fun _ => (Except.error "boom" : Except String Unit))
    (fun _ => ⟨"boom", rfl⟩)).1

/-- C4: under the four-column primary-key invariant (a row occurs at
most once), inserting the same identity twice leaves the full listing
with exactly one matching record — and `insert_processed` is a total
function, so a duplicate insert never errors — while
`check_if_processed` returns `true` after the first insert and stays
`true` after the repeated insert. -/
theorem c4_ledger_insert_idempotent (db : LedgerDb) (a r t d : String)
    (h : (get_all_processed db).count (⟨a, r, t, d⟩ : ImageIdentity) ≤ 1) :
    (get_all_processed
        (insert_processed (insert_processed db a r t d) a r t d)).count
        (⟨a, r, t, d⟩ : ImageIdentity) = 1 ∧
    check_if_processed (insert_processed db a r t d) a r t d = true ∧
    check_if_processed
      (insert_processed (insert_processed db a r t d) a r t d) a r t d = true := by
  by_cases hmem : (⟨a, r, t, d⟩ : ImageIdentity) ∈ db
  · have hpos : 0 < db.count (⟨a, r, t, d⟩ : ImageIdentity) := List.count_pos_iff.mpr hmem
    have hone : db.count (⟨a, r, t, d⟩ : ImageIdentity) = 1 := le_antisymm h hpos
    simp [insert_processed, check_if_processed, get_all_processed, hmem, hone]
  · have hzero : db.count (⟨a, r, t, d⟩ : ImageIdentity) = 0 :=
      List.count_eq_zero.mpr hmem
    simp [insert_processed, check_if_processed, get_all_processed, hmem, hzero]

/-- Witness for C4 on the empty ledger and a concrete identity. -/
theorem c4_ledger_witness :
    (get_all_processed []).count (⟨"r", "a", "v1", "d1"⟩ : ImageIdentity) ≤ 1 ∧
    (get_all_processed
        (insert_processed (insert_processed [] "r" "a" "v1" "d1") "r" "a" "v1" "d1")).count
        (⟨"r", "a", "v1", "d1"⟩ : ImageIdentity) = 1 :=
  ⟨by decide, (c4_ledger_insert_idempotent [] "r" "a" "v1" "d1" (by decide)).1⟩

/-- C5: the diff computed by `compare_registries` is pure set
subtraction on image-identity lines: membership in
`missing_in_acr A B` is exactly `x ∈ A ∧ x ∉ B`, and the three algebraic
identities `diff(A,A) = ∅`, `diff(A,∅) = A`, `diff(∅,B) = ∅` hold. -/
theorem c5_diff_is_set_subtraction (A B : Finset String) :
    (∀ x, x ∈ missing_in_acr A B ↔ x ∈ A ∧ x ∉ B) ∧
    missing_in_acr A A = ∅ ∧
    missing_in_acr A (∅ : Finset String) = A ∧
    missing_in_acr (∅ : Finset String) B = ∅ := by
  refine ⟨fun x => Finset.mem_sdiff, ?_, ?_, ?_⟩
  · exact Finset.sdiff_self A
  · exact Finset.sdiff_empty
  · exact Finset.empty_sdiff B

/-- C8: when the two inventories are equal, the diff is empty,
`compare_registries` reports no difference and leaves no difference
file (a stale one is removed in its `else` branch, on top of
`remove_old_files()` having deleted it at startup), and the main
program does not take the copy branch — whatever stale difference-file
state the run started from. -/
theorem c8_equal_inventories_skip_copy (A B : Finset String)
    (fs0 : Option (Finset String)) (h : A = B) :
    missing_in_acr A B = ∅ ∧
    compare_registries A B none = (false, none) ∧
    verify_main A B fs0 = (false, none, false) := by
  subst h
  refine ⟨Finset.sdiff_self A, ?_, ?_⟩ <;>
    simp [compare_registries, verify_main, missing_in_acr, Finset.sdiff_self]

/-- Witness for C8 at a concrete nonempty inventory and a stale
difference file. -/
theorem c8_equal_inventories_witness :
    verify_main ({"r:a:v1:-sha256:d1"} : Finset String) {"r:a:v1:-sha256:d1"}
      (some {"stale:line:x:-sha256:d0"}) = (false, none, false) :=
  (c8_equal_inventories_skip_copy {"r:a:v1:-sha256:d1"} {"r:a:v1:-sha256:d1"}
    (some {"stale:line:x:-sha256:d0"}) rfl).2.2

/-- C10: `copy_image` and `create_gcr_repository` return normally (the
Python `None`, i.e. `Except.ok ()`) whatever the subprocess exit
status: the returned value is identical for any two subprocess
outcomes, so the caller cannot distinguish failure from success by the
call's result; a nonzero `gcrane` exit code is only reflected in an
error log line. -/
lemma copy_image_fst_ok (s d : String) (res : SubprocResult) :
    (copy_image s d res).1 = Except.ok () := by
  unfold copy_image; split <;> rfl

lemma create_gcr_repository_fst_ok (rn : String) (res : SubprocResult) :
    (create_gcr_repository rn res).1 = Except.ok () := by
  unfold create_gcr_repository
  split
  · rfl
  · split <;> rfl

theorem c10_nonzero_exit_only_logged (s d rn : String) (res res2 : SubprocResult) :
    (copy_image s d res).1 = Except.ok () ∧
    (create_gcr_repository rn res).1 = Except.ok () ∧
    (copy_image s d res).1 = (copy_image s d res2).1 ∧
    (create_gcr_repository rn res).1 = (create_gcr_repository rn res2).1 ∧
    (res.returncode ≠ 0 →
      LogLine.error ("Failed to copy " ++ s ++ " to " ++ d ++ ": " ++ res.stderr)
        ∈ (copy_image s d res).2) := by
  refine ⟨copy_image_fst_ok s d res, create_gcr_repository_fst_ok rn res, ?_, ?_, ?_⟩
  · rw [copy_image_fst_ok, copy_image_fst_ok]
  · rw [create_gcr_repository_fst_ok, create_gcr_repository_fst_ok]
  · intro hne
    simp [copy_image, hne]

/-- Witness for C10 at a failing and a succeeding subprocess outcome. -/
theorem c10_witness :
    (copy_image "src" "dst" ⟨1, "denied"⟩).1 = Except.ok () ∧
    (copy_image "src" "dst" ⟨1, "denied"⟩).1 = (copy_image "src" "dst" ⟨0, ""⟩).1 :=
  ⟨(c10_nonzero_exit_only_logged "src" "dst" "rep" ⟨1, "denied"⟩ ⟨0, ""⟩).1,
   (c10_nonzero_exit_only_logged "src" "dst" "rep" ⟨1, "denied"⟩ ⟨0, ""⟩).2.2.1⟩

/-- The environment of a `process_repository` run in which the single
tag's digest resolves but the `gcrane cp` subprocess exits with code 1
on every attempt. -/
def c1_failing_env : MigrationEnv :=
  { tags := ["v1"],
    digestOf := fun _ => some "sha256:d1",
    copyRc := fun _ => 1 }

/-- C1: evaluation of `process_repository` at a run whose only copy
fails (`gcrane` exit code 1).  `copy_image` swallows the nonzero exit
code (see `c10_nonzero_exit_only_logged`), `future.result()` therefore
raises nothing, and `insert_processed` runs anyway: the ledger ends up
with a record for an identity whose copy never succeeded, so a record's
existence does not imply a confirmed-successful copy, and the insert
did happen after a failed copy. -/
theorem c1_record_inserted_after_failed_copy :
    (process_repository c1_failing_env "us" "proj" "regone" "appa" []).db
        = [⟨"regone", "appa", "v1", "sha256:d1"⟩] ∧
    (process_repository c1_failing_env "us" "proj" "regone" "appa" []).attempts
        = [("regone.azurecr.io/appa:v1", "us-docker.pkg.dev/proj/regone/appa:v1", 1)] ∧
    (∀ p ∈ (process_repository c1_failing_env "us" "proj" "regone" "appa" []).attempts,
        p.2.2 ≠ 0) ∧
    check_if_processed
      (process_repository c1_failing_env "us" "proj" "regone" "appa" []).db
      "regone" "appa" "v1" "sha256:d1" = true := by
  refine ⟨rfl, rfl, ?_, rfl⟩
  decide

/-- The two well-formed difference-file lines of the C2 evaluation. -/
def c2_replay_lines : List String :=
  ["r1:appa:v1:-sha256:d1", "r2:appb:v2:-sha256:d2"]

/-- C2: evaluation of `copy_images_to_gcr` on a difference file with two
well-formed lines.  Both lines are copied (and their repositories
ensured), but the trailing `insert_processed` block reads the loop
variables left over from the file loop, so only the *last* line's
four-tuple is recorded: the first line's identity is never inserted. -/
theorem c2_only_last_line_inserted :
    (copy_images_to_gcr "us" "proj" c2_replay_lines).copies
        = [("r1.azurecr.io/appa:v1", "us-docker.pkg.dev/proj/r1/appa:v1"),
           ("r2.azurecr.io/appb:v2", "us-docker.pkg.dev/proj/r2/appb:v2")] ∧
    (copy_images_to_gcr "us" "proj" c2_replay_lines).ensures = ["r1", "r2"] ∧
    (copy_images_to_gcr "us" "proj" c2_replay_lines).inserts
        = [⟨"r2", "appb", "v2", "-sha256:d2"⟩] ∧
    (⟨"r1", "appa", "v1", "-sha256:d1"⟩ : ImageIdentity)
        ∉ (copy_images_to_gcr "us" "proj" c2_replay_lines).inserts := by
  refine ⟨rfl, rfl, rfl, ?_⟩
  decide

/-- C9 counterexample: a run with a healthy subscription, no
`--diff-file` argument, and every dispatched copy succeeding, in which
`list_acr_registries()` exhausts its retries.  The retry wrapper then
returns `None`, `chunkify(None, MAX_CONCURRENT_JOBS)` raises an
uncaught `TypeError` (`len(None)`), and the interpreter exits nonzero —
even though the difference-file path check passed vacuously and the
subscription context resolved, contradicting "otherwise ... the process
exits 0". -/
theorem c9_enumeration_crash_counterexample :
    migration_main_exit_code (some "sub-id") none (fun _ => true) none (fun _ => 0) = 1 ∧
    (1 : Nat) ≠ 0 := by
  exact ⟨rfl, by decide⟩

/-- C9 (amended): the process exits nonzero when a supplied
difference-file path does not name an existing file; it also exits
nonzero when the startup subscription lookup fails (or yields the empty
string) and when the initial registry enumeration exhausts all retries
(the wrapper returns `None` and `chunkify` crashes on it
with a `TypeError`); in every other run it exits 0 regardless of the
outcome of individual copy items, whose exit codes never reach the
process exit status. -/
theorem c9_exit_code_policy (sub : String) (hsub : sub ≠ "")
    (isFile : String → Bool) (regs : List String) (copyRc copyRc2 : String → Int)
    (p : String) :
    (isFile p = false →
      migration_main_exit_code (some sub) (some p) isFile (some regs) copyRc = 1) ∧
    (isFile p = true →
      migration_main_exit_code (some sub) (some p) isFile (some regs) copyRc = 0) ∧
    migration_main_exit_code (some sub) none isFile (some regs) copyRc = 0 ∧
    migration_main_exit_code none (some p) isFile (some regs) copyRc = 1 ∧
    migration_main_exit_code (some "") (some p) isFile (some regs) copyRc = 1 ∧
    migration_main_exit_code (some sub) none isFile none copyRc = 1 ∧
    migration_main_exit_code (some sub) none isFile (some regs) copyRc
        = migration_main_exit_code (some sub) none isFile (some regs) copyRc2 := by
  refine ⟨fun hf => ?_, fun hf => ?_, ?_, rfl, ?_, ?_, rfl⟩ <;>
    simp [migration_main_exit_code, hsub, *]

/-- Witness for C9's amended policy at concrete inputs. -/
theorem c9_exit_code_witness :
    migration_main_exit_code (some "sub-id") (some "missing.txt") (fun _ => false)
      (some ["r1"]) (fun _ => 1) = 1 ∧
    migration_main_exit_code (some "sub-id") none (fun _ => false)
      (some ["r1"]) (fun _ => 1) = 0 :=
  ⟨(c9_exit_code_policy "sub-id" (by decide) (fun _ => false) ["r1"] (fun _ => 1)
      (fun _ => 1) "missing.txt").1 rfl,
   (c9_exit_code_policy "sub-id" (by decide) (fun _ => false) ["r1"] (fun _ => 1)
      (fun _ => 1) "missing.txt").2.2.1⟩

lemma replay_foldl_spec (region project : String) :
    ∀ (lines : List String) (acc : ReplayResult),
      (lines.foldl (replay_loop_step region project) acc).ensures
          = acc.ensures
            ++ (lines.filterMap
                (fun l => replay_line_effect region project (pyStrip l))).map (fun e => e.1) ∧
      (lines.foldl (replay_loop_step region project) acc).copies
          = acc.copies
            ++ (lines.filterMap
                (fun l => replay_line_effect region project (pyStrip l))).map
                (fun e => (e.2.1, e.2.2)) ∧
      (lines.foldl (replay_loop_step region project) acc).inserts = acc.inserts ∧
      (lines.foldl (replay_loop_step region project) acc).errored = acc.errored := by
  intro lines
  induction lines with
  | nil => intro acc; simp
  | cons x xs ih =>
    intro acc
    simp only [List.foldl_cons, List.filterMap_cons]
    cases he : replay_line_effect region project (pyStrip x) with
    | none => simpa [replay_loop_step, he] using ih acc
    | some e =>
      have := ih { acc with
        ensures := acc.ensures ++ [e.1],
        copies := acc.copies ++ [(e.2.1, e.2.2)] }
      simp only [replay_loop_step, he] at this ⊢
      simp [this]

lemma replay_line_effect_none_of_malformed (region project : String) (l : String)
    (h : (pySplit l ':').length < 3) :
    replay_line_effect region project l = none := by
  simp only [replay_line_effect]
  rw [if_neg]
  omega

/-- C7: in targeted-replay mode, a line with fewer than three
colon-delimited fields contributes nothing: the submitted copies (and
ensured repositories) are exactly the per-line effects of the
well-formed lines, a malformed line's effect being `none`; every
ledger-insert call that happens parses its registry, repository and tag
from the last line, which must have at least three fields; the outer
exception handler only ever fires on a last line with at least three
fields (the `IndexError` on `parts[3]`/`parts[4]`), never on a
malformed one; and a file of only malformed lines produces no copy, no
insert and no exception at all. -/
theorem c7_malformed_replay_line_skipped (region project : String) (lines : List String) :
    (copy_images_to_gcr region project lines).copies
        = (lines.filterMap (fun l => replay_line_effect region project (pyStrip l))).map
            (fun e => (e.2.1, e.2.2)) ∧
    (copy_images_to_gcr region project lines).ensures
        = (lines.filterMap (fun l => replay_line_effect region project (pyStrip l))).map
            (fun e => e.1) ∧
    (∀ l, (pySplit (pyStrip l) ':').length < 3 →
        replay_line_effect region project (pyStrip l) = none) ∧
    (∀ rec ∈ (copy_images_to_gcr region project lines).inserts,
        3 ≤ (pySplit (pyStrip (lines.getLastD "")) ':').length ∧
        rec.acr_name = (pySplit (pyStrip (lines.getLastD "")) ':').getD 0 "" ∧
        rec.repository = (pySplit (pyStrip (lines.getLastD "")) ':').getD 1 "" ∧
        rec.tag = (pySplit (pyStrip (lines.getLastD "")) ':').getD 2 "") ∧
    ((copy_images_to_gcr region project lines).errored = true →
        3 ≤ (pySplit (pyStrip (lines.getLastD "")) ':').length) := by
  by_cases hnil : lines = []
  · subst hnil
    refine ⟨rfl, rfl, fun l hl => replay_line_effect_none_of_malformed region project _ hl,
      ?_, ?_⟩ <;> simp [copy_images_to_gcr]
  · obtain ⟨hens, hcop, hins, herr⟩ :=
      replay_foldl_spec region project lines ⟨[], [], [], false⟩
    simp only [copy_images_to_gcr, if_neg hnil]
    refine ⟨?_, ?_, fun l hl => replay_line_effect_none_of_malformed region project _ hl,
      ?_, ?_⟩
    · split
      · split
        · simpa using hcop
        · simpa using hcop
      · simpa using hcop
    · split
      · split
        · simpa using hens
        · simpa using hens
      · simpa using hens
    · intro rec hrec
      split at hrec
      · split at hrec
        · rename_i h3 _
          simp only [hins] at hrec
          simp only [List.nil_append] at hrec
          rcases List.mem_singleton.mp hrec with rfl
          exact ⟨h3, rfl, rfl, rfl⟩
        · simp only [hins] at hrec
          simp at hrec
      · simp only [hins] at hrec
        simp at hrec
    · intro hb
      split at hb
      · rename_i h3
        exact h3
      · rw [herr] at hb
        cases hb

lemma chunkifyGo_nil (n : Nat) : ∀ fuel, chunkifyGo n fuel ([] : List α) = [] := by
  intro fuel
  cases fuel <;> rfl

lemma chunkifyGo_cons_of_ne_nil (n fuel : Nat) (lst : List α) (h : lst ≠ []) :
    chunkifyGo n (fuel + 1) lst = lst.take n :: chunkifyGo n fuel (lst.drop n) := by
  cases lst with
  | nil => exact absurd rfl h
  | cons x xs => rfl

lemma chunkifyGo_flatten (n : Nat) (hn : 0 < n) :
    ∀ (fuel : Nat) (lst : List α), lst.length ≤ fuel → (chunkifyGo n fuel lst).flatten = lst := by
  intro fuel
  induction fuel with
  | zero =>
    intro lst h
    have : lst = [] := List.eq_nil_of_length_eq_zero (Nat.le_zero.mp h)
    subst this
    rfl
  | succ f ih =>
    intro lst h
    cases lst with
    | nil => rfl
    | cons x xs =>
      rw [chunkifyGo_cons_of_ne_nil n f _ (by simp)]
      have hle : (List.drop n (x :: xs)).length ≤ f := by
        rw [List.length_drop]
        simp only [List.length_cons] at h ⊢
        omega
      rw [List.flatten_cons, ih _ hle, List.take_append_drop]

lemma chunkifyGo_dropLast (n : Nat) (hn : 0 < n) :
    ∀ (fuel : Nat) (lst : List α), lst.length ≤ fuel →
      ∀ c ∈ (chunkifyGo n fuel lst).dropLast, c.length = n := by
  intro fuel
  induction fuel with
  | zero =>
    intro lst h c hc
    have : lst = [] := List.eq_nil_of_length_eq_zero (Nat.le_zero.mp h)
    subst this
    simp [chunkifyGo] at hc
  | succ f ih =>
    intro lst h c hc
    cases lst with
    | nil => simp [chunkifyGo] at hc
    | cons x xs =>
      rw [chunkifyGo_cons_of_ne_nil n f _ (by simp)] at hc
      by_cases hr : chunkifyGo n f (List.drop n (x :: xs)) = []
      · rw [hr] at hc
        simp at hc
      · rw [List.dropLast_cons_of_ne_nil hr] at hc
        rcases List.mem_cons.mp hc with rfl | hmem
        · have hdrop : List.drop n (x :: xs) ≠ [] := by
            intro hd
            rw [hd, chunkifyGo_nil] at hr
            exact hr rfl
          have hlt : n < (x :: xs).length := by
            rcases Nat.lt_or_ge n (x :: xs).length with hlt | hge
            · exact hlt
            · exact absurd (List.drop_eq_nil_of_le hge) hdrop
          simp only [List.length_take, List.length_cons] at hlt ⊢
          omega
        · refine ih (List.drop n (x :: xs)) ?_ c hmem
          rw [List.length_drop]
          simp only [List.length_cons] at h ⊢
          omega

lemma chunkifyGo_all_chunks (n : Nat) (hn : 0 < n) :
    ∀ (fuel : Nat) (lst : List α), ∀ c ∈ chunkifyGo n fuel lst, c.length ≤ n ∧ c ≠ [] := by
  intro fuel
  induction fuel with
  | zero => intro lst c hc; simp [chunkifyGo] at hc
  | succ f ih =>
    intro lst c hc
    cases lst with
    | nil => simp [chunkifyGo] at hc
    | cons x xs =>
      rw [chunkifyGo_cons_of_ne_nil n f _ (by simp)] at hc
      rcases List.mem_cons.mp hc with rfl | hmem
      · constructor
        · simp [List.length_take]
        · intro hnil
          rcases List.take_eq_nil_iff.mp hnil with h0 | h0
          · omega
          · simp at h0
      · exact ih (List.drop n (x :: xs)) c hmem

lemma evBatch_mem_chunk_trace (sched : Nat → List α → List α) (k : Nat) (c : List α)
    (e : MigEvent α) (he : e ∈ chunk_trace sched k c) : evBatch e = k := by
  rcases List.mem_append.mp he with hm | hm <;>
    · obtain ⟨x, _, rfl⟩ := List.mem_map.mp hm
      rfl

lemma le_evBatch_mem_batches_trace (sched : Nat → List α → List α) :
    ∀ (l : List (List α)) (k : Nat) (e : MigEvent α),
      e ∈ batches_trace sched k l → k ≤ evBatch e := by
  intro l
  induction l with
  | nil => intro k e he; simp [batches_trace] at he
  | cons c rest ih =>
    intro k e he
    rcases List.mem_append.mp he with hm | hm
    · exact Nat.le_of_eq (evBatch_mem_chunk_trace sched k c e hm).symm
    · exact Nat.le_trans (Nat.le_succ k) (ih (k + 1) e hm)

lemma pairwise_evBatch_of_const {l : List (MigEvent α)} {k : Nat}
    (h : ∀ e ∈ l, evBatch e = k) :
    l.Pairwise (fun a b => evBatch a ≤ evBatch b) := by
  induction l with
  | nil => exact List.Pairwise.nil
  | cons x xs ih =>
    refine List.Pairwise.cons (fun y hy => ?_)
      (ih (fun e he => h e (List.mem_cons_of_mem x he)))
    rw [h x (List.mem_cons_self x xs), h y (List.mem_cons_of_mem x hy)]

lemma batches_trace_pairwise (sched : Nat → List α → List α) :
    ∀ (l : List (List α)) (k : Nat),
      (batches_trace sched k l).Pairwise (fun a b => evBatch a ≤ evBatch b) := by
  intro l
  induction l with
  | nil => intro k; exact List.Pairwise.nil
  | cons c rest ih =>
    intro k
    rw [batches_trace, List.pairwise_append]
    refine ⟨pairwise_evBatch_of_const (evBatch_mem_chunk_trace sched k c), ih (k + 1),
      fun a ha b hb => ?_⟩
    rw [evBatch_mem_chunk_trace sched k c a ha]
    exact Nat.le_trans (Nat.le_succ k) (le_evBatch_mem_batches_trace sched rest (k + 1) b hb)

lemma chunkify_lengths_twelve_five (l : List α) (hl : l.length = 12) :
    (chunkify l 5).map List.length = [5, 5, 2] := by
  have h1 : l ≠ [] := by
    intro h
    rw [h] at hl
    simp at hl
  have h2 : List.drop 5 l ≠ [] := by
    intro h
    have := congrArg List.length h
    rw [List.length_drop, hl] at this
    simp at this
  have h3 : List.drop 5 (List.drop 5 l) ≠ [] := by
    intro h
    have := congrArg List.length h
    rw [List.length_drop, List.length_drop, hl] at this
    simp at this
  have h4 : List.drop 5 (List.drop 5 (List.drop 5 l)) = [] := by
    apply List.eq_nil_of_length_eq_zero
    rw [List.length_drop, List.length_drop, List.length_drop, hl]
  have e12 : (12 : Nat) = 11 + 1 := rfl
  have e11 : (11 : Nat) = 10 + 1 := rfl
  have e10 : (10 : Nat) = 9 + 1 := rfl
  rw [chunkify, if_neg (by omega), hl, e12, chunkifyGo_cons_of_ne_nil 5 11 l h1, e11,
    chunkifyGo_cons_of_ne_nil 5 10 _ h2, e10, chunkifyGo_cons_of_ne_nil 5 9 _ h3, h4,
    chunkifyGo_nil]
  simp [List.length_take, List.length_drop, hl]

/-- C6: for any registry list and any concurrency limit `0 < n`,
`chunkify` partitions the list into consecutive chunks — their
concatenation is the original list, every chunk before the last has
length exactly `n`, and every chunk is nonempty of length at most `n` —
for 12 registries and limit 5 the chunk sizes are `[5, 5, 2]`; and in
the full-scan driver's event trace (whatever completion order the pool
produces inside each batch) events of a smaller batch index always
occur strictly earlier, so no item of batch `k+1` is dispatched before
every item of batch `k` has completed. -/
theorem c6_chunked_barrier_dispatch (regs : List α) (n : Nat)
    (sched : Nat → List α → List α) (hn : 0 < n) :
    (chunkify regs n).flatten = regs ∧
    (∀ c ∈ (chunkify regs n).dropLast, c.length = n) ∧
    (∀ c ∈ chunkify regs n, c.length ≤ n ∧ c ≠ []) ∧
    (regs.length = 12 → n = 5 → (chunkify regs n).map List.length = [5, 5, 2]) ∧
    (∀ (i j : Fin (main_dispatch_trace sched regs n).length),
        evBatch ((main_dispatch_trace sched regs n).get i)
            < evBatch ((main_dispatch_trace sched regs n).get j) → i < j) := by
  have hchunk : chunkify regs n = chunkifyGo n regs.length regs := by
    rw [chunkify, if_neg (Nat.pos_iff_ne_zero.mp hn)]
  refine ⟨?_, ?_, ?_, ?_, ?_⟩
  · rw [hchunk]
    exact chunkifyGo_flatten n hn regs.length regs (Nat.le_refl _)
  · rw [hchunk]
    exact chunkifyGo_dropLast n hn regs.length regs (Nat.le_refl _)
  · rw [hchunk]
    exact chunkifyGo_all_chunks n hn regs.length regs
  · intro h12 h5
    subst h5
    exact chunkify_lengths_twelve_five regs h12
  · intro i j hij
    have hpw : (main_dispatch_trace sched regs n).Pairwise
        (fun a b => evBatch a ≤ evBatch b) :=
      batches_trace_pairwise sched (chunkify regs n) 0
    rcases Nat.lt_trichotomy i.1 j.1 with hlt | heq | hgt
    · exact hlt
    · exact absurd hij (by rw [Fin.ext heq]; exact lt_irrefl _)
    · have := List.pairwise_iff_get.mp hpw j i hgt
      exact absurd hij (Nat.not_lt_of_le this)

/-- Witness for C6 at 12 registries, limit 5, and the identity
completion order; the batch sizes [5, 5, 2] are also evaluated
directly. -/
theorem c6_chunked_barrier_witness :
    (chunkify (List.range 12) 5).map List.length = [5, 5, 2] ∧
    (chunkify (List.range 12) 5).flatten = List.range 12 :=
  ⟨by decide,
   (c6_chunked_barrier_dispatch (List.range 12) 5 (fun _ c => c) (by decide)).1⟩

/-- Witness for C7 on a replay file consisting of the single malformed
line `"onlytwo:fields"`: no copy is submitted, the per-line effect is
`none`, no insert happens, and the exception handler never fires. -/
theorem c7_malformed_witness :
    (copy_images_to_gcr "us" "proj" ["onlytwo:fields"]).copies = [] ∧
    replay_line_effect "us" "proj" (pyStrip "onlytwo:fields") = none ∧
    (copy_images_to_gcr "us" "proj" ["onlytwo:fields"]).inserts = [] ∧
    (copy_images_to_gcr "us" "proj" ["onlytwo:fields"]).errored = false := by
  have h := c7_malformed_replay_line_skipped "us" "proj" ["onlytwo:fields"]
  refine ⟨?_, h.2.2.1 "onlytwo:fields" (by decide), by decide, by decide⟩
  rw [h.1]
  decide
